import Mathlib

/-!
Shallow embedding of the note-organizer query/filter/sort/highlight core,
`src/notes_frontend/src/utils/notes.js`, together with theorems checking the
specification's claims about it.

Modelling conventions:
* JavaScript strings are modelled as `List Char` (`Str` below).
* A JS object field that may be `undefined`/`null` is modelled as an `Option`.
  JS truthiness on strings ("" is falsy) is made explicit at each `||` site.
* Case conversion (`toLowerCase`, the regex `i` flag) is modelled by
  `Char.toLower`, which covers the Basic Latin range the application uses.
* `Date.parse` and the stable `Array.prototype.sort` are platform facilities;
  they are modelled explicitly where the embedded functions use them.
-/

/-- Strings of the JavaScript program, modelled as lists of characters. -/
abbrev Str := List Char

/-- Whitespace class shared by JS `String.prototype.trim` and the regex
class `\s` (the ASCII members, which are the ones the application meets). -/
def isWSpace (c : Char) : Bool :=
  c == ' ' || c == '\t' || c == '\n' || c == '\r' || c == '\x0b' || c == '\x0c'

/-- JS `String.prototype.trim`: strip leading and trailing whitespace. -/
def trimJS (s : Str) : Str :=
  ((s.dropWhile isWSpace).reverse.dropWhile isWSpace).reverse

/-- JS `String.prototype.toLowerCase` restricted to Basic Latin. -/
def lowerL (s : Str) : Str := s.map Char.toLower

/-- Truthiness of an optional JS string: `undefined`, `null` and `""` are falsy. -/
def truthyS (a : Option Str) : Bool :=
  match a with
  | none => false
  | some s => !s.isEmpty

/-- JS `a || b` on an optional string (left operand kept when truthy). -/
def jsOrStr (a : Option Str) (b : Str) : Str :=
  match a with
  | none => b
  | some s => if s.isEmpty then b else s

/-- Note record of `notes.js`.  Fields other than `id` may be absent in the
collections the filter and sort functions receive (the unit tests pass notes
without `updatedAt`, `title`, `body` or `tags`), so they are `Option`s. -/
structure Note where
  id : Str
  title : Option Str
  body : Option Str
  tags : Option (List Str)
  createdAt : Option Str
  updatedAt : Option Str
deriving DecidableEq

/-- Highlight segment returned by `toHighlightedSegments`. -/
structure Segment where
  text : Str
  highlight : Bool
deriving DecidableEq

/-! ### Date parsing (platform facility used by the Sort Engine) -/

/-- Numeric value of a decimal digit character. -/
def digitVal (c : Char) : Option Nat :=
  if c.isDigit then some (c.toNat - '0'.toNat) else none

/-- Parse a run of decimal digits; `none` when a character is not a digit. -/
def parseDigits (l : List Char) : Option Nat :=
  l.foldl
    (fun acc c =>
      match acc, digitVal c with
      | some a, some d => some (a * 10 + d)
      | _, _ => none)
    (some 0)

/-- Gregorian leap-year test. -/
def isLeap (y : Nat) : Bool :=
  (y % 4 == 0 && y % 100 != 0) || y % 400 == 0

/-- Number of days in a month of the proleptic Gregorian calendar. -/
def daysInMonth (y m : Nat) : Nat :=
  if m == 2 then (if isLeap y then 29 else 28)
  else if m == 4 || m == 6 || m == 9 || m == 11 then 30 else 31

/-- Days from 1970-01-01 to year `y`, month `m`, day `d` (valid for `y ≥ 1`,
`1 ≤ m ≤ 12`); the standard days-from-civil computation. -/
def daysFromCivil (y m d : Nat) : Int :=
  let y2 := if m ≤ 2 then y - 1 else y
  let era := y2 / 400
  let yoe := y2 % 400
  let mp := (m + 9) % 12
  let doy := (153 * mp + 2) / 5 + (d - 1)
  let doe := yoe * 365 + yoe / 4 - yoe / 100 + doy
  (era * 146097 + doe : Nat) - 719468

/-- Milliseconds since the epoch for a validated UTC civil time. -/
def mkUTC (y mo da hh mi ss ms : Nat) : Option Int :=
  if 1 ≤ mo && mo ≤ 12 && 1 ≤ da && da ≤ daysInMonth y mo
      && hh ≤ 23 && mi ≤ 59 && ss ≤ 59 then
    some (daysFromCivil y mo da * 86400000 + (hh * 3600000 + mi * 60000 + ss * 1000 + ms : Nat))
  else none

/-- Modelled from the platform: ECMAScript `Date.parse`, restricted to the
ISO-8601 UTC forms the application produces (`Date.prototype.toISOString`
output `YYYY-MM-DDTHH:MM:SS.mmmZ` and the date-only form `YYYY-MM-DD`).
Every other string is treated as unparseable; `none` stands for `NaN`.
(Non-ISO parsing is implementation-defined in ECMAScript; strings such as
`"not-a-date"` are `NaN` in every engine.) -/
def dateParse (s : Str) : Option Int :=
  match s with
  | [a, b, c, d, '-', e, f, '-', g, h] =>
    (match parseDigits [a, b, c, d], parseDigits [e, f], parseDigits [g, h] with
     | some y, some mo, some da => mkUTC y mo da 0 0 0 0
     | _, _, _ => none)
  | [a, b, c, d, '-', e, f, '-', g, h, 'T',
     i1, i2, ':', j1, j2, ':', k1, k2, '.', l1, l2, l3, 'Z'] =>
    (match parseDigits [a, b, c, d], parseDigits [e, f], parseDigits [g, h],
           parseDigits [i1, i2], parseDigits [j1, j2], parseDigits [k1, k2],
           parseDigits [l1, l2, l3] with
     | some y, some mo, some da, some hh, some mi, some ss, some ms =>
       mkUTC y mo da hh mi ss ms
     | _, _, _, _, _, _, _ => none)
  | _ => none

/-! ### Sort Engine (`sortNotesByUpdatedAtDesc`) -/

/-- Argument handed to `Date.parse` for a note: `a.updatedAt || a.createdAt || 0`.
When both fields are falsy the JS value is the number `0`, which `Date.parse`
coerces to the string `"0"`. -/
def tsArg (n : Note) : Str :=
  jsOrStr n.updatedAt (jsOrStr n.createdAt ("0".toList))

/-- Effective comparison key of a note (`NaN` modelled as `none`):
`const ta = Date.parse(a.updatedAt || a.createdAt || 0)`. -/
def noteKey (n : Note) : Option Int := dateParse (tsArg n)

/-- Comparator result `tb - ta`; `NaN` propagates. -/
def noteCmp (a b : Note) : Option Int :=
  match noteKey b, noteKey a with
  | some tb, some ta => some (tb - ta)
  | _, _ => none

/-- Sort-order relation fed to the stable sort: JS engines keep `a` before `b`
unless the comparator returns a value `> 0`; a `NaN` comparator result is
treated like `0` (neither `< 0` nor `> 0`), i.e. the pair is left in order. -/
def sortLe (a b : Note) : Bool :=
  match noteCmp a b with
  | some v => v ≤ 0
  | none => true

/-- Modelled from the platform: insertion step of a stable comparator sort.
`x` (which precedes every element of the list in the input) is placed before
the first element it is not strictly after, so ties keep input order. -/
def insertCmp {α : Type} (le : α → α → Bool) (x : α) : List α → List α
  | [] => [x]
  | y :: ys => if le x y then x :: y :: ys else y :: insertCmp le x ys

/-- Modelled from the platform: `Array.prototype.sort`, a stable sort by the
supplied comparator (ECMAScript requires sort stability). -/
def sortCmp {α : Type} (le : α → α → Bool) : List α → List α
  | [] => []
  | x :: xs => insertCmp le x (sortCmp le xs)

/-- Observable effect of a call to `sortNotesByUpdatedAtDesc`: the returned
array and the contents of the caller's array after the call.  The source
spreads the input (`[...notes]`) and sorts the copy in place, so the caller's
array is never handed to the mutating sort. -/
structure SortCall where
  ret : List Note
  arg : List Note
deriving DecidableEq

/-- Embedding of `sortNotesByUpdatedAtDesc`: copy the input, stable-sort the
copy by `updatedAt` (with the `||` fallbacks) descending, return the copy. -/
def sortNotesByUpdatedAtDesc (notes : List Note) : SortCall :=
  let copy := notes
  { ret := sortCmp sortLe copy, arg := notes }

/-! ### Note timestamps (`updateNoteTimestamps`) -/

/-- Embedding of `updateNoteTimestamps`; the two `new Date().toISOString()`
reads inside one call are modelled as the same instant `now`. -/
def updateNoteTimestamps (now : Str) (note : Note) : Note :=
  { note with
    createdAt := some (jsOrStr note.createdAt now),
    updatedAt := some now }

/-- Lexicographic order on strings; on equal-length ISO-8601 UTC timestamps it
coincides with chronological order. -/
def isoLt : Str → Str → Bool
  | [], [] => false
  | [], _ :: _ => true
  | _ :: _, [] => false
  | a :: as, b :: bs => if a < b then true else if b < a then false else isoLt as bs

/-- Order on optional timestamps; absent values are never ordered. -/
def optIsoLt (a b : Option Str) : Bool :=
  match a, b with
  | some x, some y => isoLt x y
  | _, _ => false

/-! ### Preview (`getNotePreview`) -/

/-- Worker for `collapseWS`; `inWs` records whether the previous character was
whitespace (in which case the single replacement space was already emitted). -/
def collapseGo (inWs : Bool) : Str → Str
  | [] => []
  | c :: rest =>
    if isWSpace c then
      if inWs then collapseGo true rest else ' ' :: collapseGo true rest
    else c :: collapseGo false rest

/-- JS `replace(/\s+/g, " ")`: collapse every maximal whitespace run to one space. -/
def collapseWS (s : Str) : Str := collapseGo false s

/-- Placeholder returned for an empty preview. -/
def noContentPlaceholder : Str := "No content yet…".toList

/-- Embedding of `getNotePreview`: collapse whitespace in the body, trim, and
fall back to the placeholder when the result is empty. -/
def getNotePreview (note : Note) : Str :=
  let body := trimJS (collapseWS (note.body.getD []))
  if body.isEmpty then noContentPlaceholder else body

/-! ### Query Parser (`parseSearchQuery`) -/

/-- Word-character class of the regex `\b` boundary (`[A-Za-z0-9_]`). -/
def isWordChar (c : Char) : Bool := c.isAlphanum || c == '_'

/-- Does the list start with the four characters `tag:`, the key being
case-insensitive (regex literal under the `i` flag)? -/
def tagKeyMatches (l : Str) : Bool :=
  match l with
  | t :: a :: g :: c :: _ =>
    t.toLower == 't' && a.toLower == 'a' && g.toLower == 'g' && c == ':'
  | _ => false

/-- Attempt to match `tag:\s*(?:"([^"]+)"|([^\s]+))` at the head of `l`.
Returns `(matched span, group 1, group 2)` on success.  The quoted
alternative needs a non-empty quoted value with a closing quote; otherwise
the unquoted alternative takes the maximal run of non-whitespace characters
(which may itself start with a quote). -/
def tryTagMatchAt (l : Str) : Option (Str × Option Str × Option Str) :=
  if tagKeyMatches l then
    let rest := l.drop 4
    let rest2 := rest.dropWhile isWSpace
    let wsCount := rest.length - rest2.length
    match rest2 with
    | '"' :: r =>
      let content := r.takeWhile (fun c => c != '"')
      if !content.isEmpty && content.length < r.length then
        some (l.take (4 + wsCount + 1 + content.length + 1), some content, none)
      else
        let token := rest2.takeWhile (fun c => !isWSpace c)
        if token.isEmpty then none
        else some (l.take (4 + wsCount + token.length), none, some token)
    | _ =>
      let token := rest2.takeWhile (fun c => !isWSpace c)
      if token.isEmpty then none
      else some (l.take (4 + wsCount + token.length), none, some token)
  else none

/-- Left-to-right scan for the regex `/\btag:\s*(?:"([^"]+)"|([^\s]+))/i`:
try each position whose predecessor is not a word character (`\b` holds there
because a successful match starts with `t`/`T`). -/
def findTagMatchAux : Option Char → Str → Option (Str × Option Str × Option Str)
  | _, [] => none
  | prev, c :: rest =>
    let bOk := match prev with
      | none => true
      | some p => !isWordChar p
    if bOk then
      match tryTagMatchAt (c :: rest) with
      | some r => some r
      | none => findTagMatchAux (some c) rest
    else findTagMatchAux (some c) rest

/-- First match of the `tag:` regex in `s`, if any. -/
def findTagMatch (s : Str) : Option (Str × Option Str × Option Str) :=
  findTagMatchAux none s

/-- First index at which `pat` occurs in `s` as an exact substring. -/
def indexOfSub (s pat : Str) : Option Nat :=
  (List.range (s.length + 1)).find? (fun i => ((s.drop i).take pat.length) == pat)

/-- JS `String.prototype.replace` with a string pattern: replace the first
occurrence of `pat` in `s` by `rep` (unchanged when `pat` does not occur). -/
def replaceFirst (s pat rep : Str) : Str :=
  match indexOfSub s pat with
  | none => s
  | some i => s.take i ++ rep ++ s.drop (i + pat.length)

/-- Embedding of `parseSearchQuery`: returns `(text, tag)`. -/
def parseSearchQuery (query : Str) : Str × Option Str :=
  let raw := trimJS query
  if raw.isEmpty then ([], none)
  else
    match findTagMatch raw with
    | none => (raw, none)
    | some (m0, g1, g2) =>
      let tagValue := trimJS ((g1.getD (g2.getD [])))
      let tag := if tagValue.isEmpty then none else some tagValue
      let text := trimJS (collapseWS (replaceFirst raw m0 (" ".toList)))
      (text, tag)

/-! ### Filter Engine (`filterNotes`) -/

/-- Chip predicate: `!activeTag || activeTag === "all" ? true : tags.includes(activeTag)`. -/
def matchesActiveTag (tags : List Str) (activeTag : Option Str) : Bool :=
  match activeTag with
  | none => true
  | some t => if t.isEmpty || t == ("all".toList) then true else tags.contains t

/-- In-query tag predicate:
`!tagFromQuery ? true : tags.some((t) => String(t).toLowerCase() === tagFromQuery.toLowerCase())`. -/
def matchesQueryTag (tags : List Str) (tagFromQuery : Option Str) : Bool :=
  match tagFromQuery with
  | none => true
  | some tq =>
    if tq.isEmpty then true else tags.any (fun t => lowerL t == lowerL tq)

/-- Haystack for free-text search: `` `${n.title || ""}\n${n.body || ""}\n${tags.join(" ")}` ``. -/
def noteHay (n : Note) : Str :=
  (n.title.getD []) ++ '\n' :: (n.body.getD []) ++ '\n'
    :: List.intercalate (" ".toList) (n.tags.getD [])

/-- JS `String.prototype.includes`: `q` occurs in `hay` as a substring. -/
def hasSubstr (hay q : Str) : Bool :=
  (List.range (hay.length + 1)).any (fun i => ((hay.drop i).take q.length) == q)

/-- Per-note filter predicate of `filterNotes`, taking the parsed query. -/
def keepNote (p : Str × Option Str) (activeTag : Option Str) (n : Note) : Bool :=
  let q := lowerL (trimJS p.1)
  let tags := n.tags.getD []
  let mA := matchesActiveTag tags activeTag
  let mQ := matchesQueryTag tags p.2
  if q.isEmpty then mA && mQ
  else mA && mQ && hasSubstr (lowerL (noteHay n)) q

/-- Embedding of `filterNotes`. -/
def filterNotes (notes : List Note) (query : Str) (activeTag : Option Str) : List Note :=
  notes.filter (keepNote (parseSearchQuery query) activeTag)

/-! ### Highlight Engine (`toHighlightedSegments`) -/

/-- Case-insensitive occurrence of `q` at position `i` of `s` (regex `i` flag
on the literal-escaped needle). -/
def occursAt (s q : Str) (i : Nat) : Bool :=
  lowerL ((s.drop i).take q.length) == lowerL q

/-- Leftmost case-insensitive occurrence of `q` in `s` at or after `i`
(`matchAll` resumes each search at the end of the previous match). -/
def findFrom (s q : Str) (i : Nat) : Option Nat :=
  (List.range (s.length + 1)).find? (fun j => decide (i ≤ j) && occursAt s q j)

/-- JS `s.slice(a, b)` for `a ≤ b` within bounds. -/
def sliceStr (s : Str) (a b : Nat) : Str := (s.take b).drop a

/-- Match loop of `toHighlightedSegments`: emit a non-highlighted gap before
each match, the highlighted match itself, and a trailing non-highlighted
remainder after the last match. -/
def hlLoop (s q : Str) (last : Nat) : Nat → List Segment
  | 0 => if last < s.length then [⟨sliceStr s last s.length, false⟩] else []
  | fuel + 1 =>
    match findFrom s q last with
    | none => if last < s.length then [⟨sliceStr s last s.length, false⟩] else []
    | some start =>
      let e := start + q.length
      (if last < start then [⟨sliceStr s last start, false⟩] else [])
        ++ ⟨sliceStr s start e, true⟩ :: hlLoop s q e fuel

/-- Embedding of `toHighlightedSegments`.  The source escapes the needle
before building its regex, so matching is literal; the fuel `s.length + 1`
dominates the number of (non-empty) matches. -/
def toHighlightedSegments (text needle : Str) : List Segment :=
  let s := text
  let q := trimJS needle
  if q.isEmpty then [⟨s, false⟩]
  else
    let parts := hlLoop s q 0 (s.length + 1)
    if parts.isEmpty then [⟨s, false⟩] else parts

/-! ### Spec-side predicates (refinement targets, following the spec's words) -/

/-- Filter predicate exactly as the specification words it, over a parsed
query `p`: (1) `activeTag` null/absent or the sentinel `"all"`, or the tags
contain it exactly; (2) no tag parsed, or some tag equals it
case-insensitively; (3) free text empty, or the lower-cased haystack contains
it as a substring. -/
def specKeepP (p : Str × Option Str) (activeTag : Option Str) (n : Note) : Bool :=
  let tags := n.tags.getD []
  let activeOK := match activeTag with
    | none => true
    | some t => t == ("all".toList) || tags.contains t
  let tagOK := match p.2 with
    | none => true
    | some tq => tags.any (fun t => lowerL t == lowerL tq)
  let q := lowerL (trimJS p.1)
  let textOK := q.isEmpty || hasSubstr (lowerL (noteHay n)) q
  activeOK && tagOK && textOK

/-- Spec-worded filter predicate on the raw query. -/
def specKeep (n : Note) (rawQuery : Str) (activeTag : Option Str) : Bool :=
  specKeepP (parseSearchQuery rawQuery) activeTag n

/-- Amended filter predicate: as `specKeepP`, except that predicate (1) is
also true when `activeTag` is the empty string (JS falsiness of the chip). -/
def specKeepAmendedP (p : Str × Option Str) (activeTag : Option Str) (n : Note) : Bool :=
  let tags := n.tags.getD []
  let activeOK := match activeTag with
    | none => true
    | some t => t.isEmpty || t == ("all".toList) || tags.contains t
  let tagOK := match p.2 with
    | none => true
    | some tq => tags.any (fun t => lowerL t == lowerL tq)
  let q := lowerL (trimJS p.1)
  let textOK := q.isEmpty || hasSubstr (lowerL (noteHay n)) q
  activeOK && tagOK && textOK

/-- Amended spec predicate on the raw query. -/
def specKeepAmended (n : Note) (rawQuery : Str) (activeTag : Option Str) : Bool :=
  specKeepAmendedP (parseSearchQuery rawQuery) activeTag n

/-! ### Concrete notes used by counterexamples and witnesses -/

/-- Note carrying the single tag `x`. -/
def noteTagX : Note := ⟨"1".toList, none, none, some ["x".toList], none, none⟩

/-- Note whose `updatedAt` is present but unparseable while `createdAt` is a
valid timestamp. -/
def noteBadUpd : Note :=
  ⟨"u".toList, none, none, none, some ("1970-01-02T00:00:00.000Z".toList),
    some ("not-a-date".toList)⟩

/-- Note with an unparseable `updatedAt` and no `createdAt`. -/
def noteNaN : Note :=
  ⟨"g".toList, none, none, none, none, some ("not-a-date".toList)⟩

/-- Note updated one day after the epoch. -/
def noteEpoch1 : Note :=
  ⟨"h".toList, none, none, none, none, some ("1970-01-02T00:00:00.000Z".toList)⟩

/-- Note with no `updatedAt` and a valid `createdAt` (shape of the unit tests'
fallback case). -/
def noteNoUpd : Note :=
  ⟨"b".toList, none, none, none, some ("2025-01-03T00:00:00.000Z".toList), none⟩

/-- Fully populated note used to instantiate witnesses. -/
def noteSample : Note :=
  ⟨"w".toList, some ("A title".toList), some ("Some body".toList),
    some ["work".toList], some ("2025-01-01T00:00:00.000Z".toList),
    some ("2025-01-01T00:00:00.000Z".toList)⟩

/-! ### Helper lemmas -/

lemma insertCmp_perm {α : Type} (le : α → α → Bool) (x : α) (l : List α) :
    (insertCmp le x l).Perm (x :: l) := by
  induction l with
  | nil => simp [insertCmp]
  | cons y ys ih =>
    simp only [insertCmp]
    split
    · exact List.Perm.refl _
    · exact (ih.cons y).trans (List.Perm.swap x y ys)

lemma sortCmp_perm {α : Type} (le : α → α → Bool) (l : List α) :
    (sortCmp le l).Perm l := by
  induction l with
  | nil => exact List.Perm.refl _
  | cons x xs ih => exact (insertCmp_perm le x (sortCmp le xs)).trans (ih.cons x)

lemma findFrom_some (s q : Str) (i j : Nat) (h : findFrom s q i = some j) :
    i ≤ j ∧ occursAt s q j = true := by
  have hp := List.find?_some h
  rw [Bool.and_eq_true] at hp
  exact ⟨of_decide_eq_true hp.1, hp.2⟩

lemma occursAt_bound (s q : Str) (j : Nat) (hq : q ≠ []) (h : occursAt s q j = true) :
    j + q.length ≤ s.length := by
  unfold occursAt at h
  have he : lowerL ((s.drop j).take q.length) = lowerL q := eq_of_beq h
  have hl : ((s.drop j).take q.length).length = q.length := by
    have := congrArg List.length he
    simpa [lowerL] using this
  rw [List.length_take, List.length_drop, min_eq_left_iff] at hl
  have hq' : 0 < q.length := List.length_pos.mpr hq
  omega

lemma slice_drop_append (s : Str) (a b : Nat) (h1 : a ≤ b) (h2 : b ≤ s.length) :
    sliceStr s a b ++ s.drop b = s.drop a := by
  unfold sliceStr
  conv_rhs => rw [← List.take_append_drop b s]
  rw [List.drop_append_of_le_length (by rw [List.length_take]; omega)]

lemma hlLoop_flatten (s q : Str) (hq : q ≠ []) :
    ∀ (fuel last : Nat), s.length < fuel + last →
      ((hlLoop s q last fuel).map Segment.text).flatten = s.drop last := by
  intro fuel
  induction fuel with
  | zero =>
    intro last h
    simp only [hlLoop]
    rw [if_neg (by omega)]
    simp [List.drop_eq_nil_of_le (by omega : s.length ≤ last)]
  | succ fuel ih =>
    intro last h
    simp only [hlLoop]
    cases hf : findFrom s q last with
    | none =>
      by_cases hl : last < s.length
      · rw [if_pos hl]
        simp [sliceStr, List.take_length]
      · rw [if_neg hl]
        simp [List.drop_eq_nil_of_le (by omega : s.length ≤ last)]
    | some start =>
      obtain ⟨h1, h2⟩ := findFrom_some s q last start hf
      have h3 := occursAt_bound s q start hq h2
      have hql : 0 < q.length := List.length_pos.mpr hq
      have hrec := ih (start + q.length) (by omega)
      by_cases hls : last < start
      · simp only [if_pos hls, List.cons_append, List.nil_append, List.map_cons,
          List.map_append, List.flatten_cons, List.map_nil, List.flatten_append,
          List.flatten_nil, hrec]
        rw [slice_drop_append s start (start + q.length) (by omega) (by omega)]
        exact slice_drop_append s last start (by omega) (by omega)
      · simp only [if_neg hls, List.nil_append, List.map_cons, List.flatten_cons, hrec]
        have hle : last = start := by omega
        subst hle
        exact slice_drop_append s last (last + q.length) (by omega) (by omega)

lemma parse_tag_ne_empty (q : Str) : (parseSearchQuery q).2 ≠ some [] := by
  unfold parseSearchQuery
  by_cases h : (trimJS q).isEmpty
  · simp [h]
  · rw [if_neg h]
    cases hm : findTagMatch (trimJS q) with
    | none => simp
    | some r =>
      obtain ⟨m0, g1, g2⟩ := r
      by_cases hv : (trimJS (g1.getD (g2.getD []))).isEmpty
      · simp [hv]
      · simp only [hv, Bool.false_eq_true, if_false, ne_eq, Option.some.injEq]
        intro hcon
        rw [hcon] at hv
        simp at hv

lemma keepNote_eq_amended (p : Str × Option Str) (a : Option Str) (n : Note)
    (hp : p.2 ≠ some []) :
    keepNote p a n = specKeepAmendedP p a n := by
  have hA : matchesActiveTag (n.tags.getD []) a
      = (match a with
      | none => true
      | some t => t.isEmpty || t == ("all".toList) || (n.tags.getD []).contains t) := by
    unfold matchesActiveTag
    cases a with
    | none => rfl
    | some t =>
      cases hc : t.isEmpty <;> cases he : (t == ("all".toList))
        <;> cases hm : (n.tags.getD []).contains t
        <;> simp [hc, he, hm, Bool.beq_eq_decide_eq]
  have hQ : matchesQueryTag (n.tags.getD []) p.2
      = (match p.2 with
      | none => true
      | some tq => (n.tags.getD []).any (fun t => lowerL t == lowerL tq)) := by
    unfold matchesQueryTag
    cases hp2 : p.2 with
    | none => rfl
    | some tq =>
      have htq : tq.isEmpty = false := by
        rw [List.isEmpty_eq_false]
        intro hh
        exact hp (by rw [hp2, hh])
      simp [htq]
  simp only [keepNote, specKeepAmendedP, hA, hQ]
  cases hqe : (lowerL (trimJS p.1)).isEmpty <;> simp [hqe]

lemma hasSubstr_iff_infix (hay q : Str) : hasSubstr hay q = true ↔ q <:+: hay := by
  unfold hasSubstr
  rw [List.any_eq_true]
  constructor
  · rintro ⟨i, _, he⟩
    have he' : (hay.drop i).take q.length = q := eq_of_beq he
    refine ⟨hay.take i, hay.drop (i + q.length), ?_⟩
    calc hay.take i ++ q ++ hay.drop (i + q.length)
        = hay.take i ++ ((hay.drop i).take q.length ++ ((hay.drop i).drop q.length)) := by
          rw [he', List.drop_drop]
          simp [List.append_assoc, Nat.add_comm]
      _ = hay.take i ++ hay.drop i := by rw [List.take_append_drop]
      _ = hay := List.take_append_drop i hay
  · rintro ⟨s, t, rfl⟩
    refine ⟨s.length, List.mem_range.mpr ?_, ?_⟩
    · simp [List.length_append]
      omega
    · rw [List.append_assoc, List.drop_left, List.take_left]
      exact beq_self_eq_true q

lemma collapseGo_all_ws (b : Str) (hb : b.all isWSpace = true) :
    collapseGo true b = [] := by
  induction b with
  | nil => rfl
  | cons c r ih =>
    rw [List.all_cons, Bool.and_eq_true] at hb
    simp [collapseGo, hb.1, ih hb.2]

lemma trim_collapse_all_ws (b : Str) (hb : b.all isWSpace = true) :
    trimJS (collapseWS b) = [] := by
  cases b with
  | nil => rfl
  | cons c r =>
    rw [List.all_cons, Bool.and_eq_true] at hb
    unfold collapseWS
    simp only [collapseGo, hb.1, if_true, collapseGo_all_ws r hb.2]
    rfl

lemma filter_single_map_id (q : Str) (a : Option Str) (m1 m2 : Note)
    (hk : keepNote (parseSearchQuery q) a m1 = keepNote (parseSearchQuery q) a m2)
    (hid : m1.id = m2.id) :
    (filterNotes [m1] q a).map Note.id = (filterNotes [m2] q a).map Note.id := by
  unfold filterNotes
  cases h : keepNote (parseSearchQuery q) a m2 <;>
    simp [List.filter_cons, hk, h, hid]

/-! ### Claim theorems -/

/-- C1: concatenating the `text` fields of the segments returned by
`toHighlightedSegments`, in order, reconstructs the input text exactly. -/
theorem highlight_reconstructs (text needle : Str) :
    ((toHighlightedSegments text needle).map Segment.text).flatten = text := by
  unfold toHighlightedSegments
  by_cases hq : (trimJS needle).isEmpty
  · simp [hq]
  · rw [if_neg hq]
    have hq' : trimJS needle ≠ [] := by simpa [List.isEmpty_iff] using hq
    by_cases hp : (hlLoop text (trimJS needle) 0 (text.length + 1)).isEmpty
    · simp [hp]
    · rw [if_neg hp]
      have := hlLoop_flatten text (trimJS needle) hq' (text.length + 1) 0 (by omega)
      simpa using this

/-- C6: `filterNotes` returns a stable subset of its input: every output note
is an input note and the relative input order is preserved (the output is a
sublist of the input). -/
theorem filterNotes_stable_subset (notes : List Note) (query : Str) (activeTag : Option Str) :
    (filterNotes notes query activeTag).Sublist notes :=
  List.filter_sublist notes

/-- C8: `sortNotesByUpdatedAtDesc` does not mutate its input (the caller's
array after the call is exactly the input) and returns a reordering of the
same elements. -/
theorem sortNotes_no_mutation_perm (notes : List Note) :
    (sortNotesByUpdatedAtDesc notes).arg = notes
      ∧ ((sortNotesByUpdatedAtDesc notes).ret).Perm notes :=
  ⟨rfl, sortCmp_perm sortLe notes⟩

/-- C2 counterexample: with the empty-string `activeTag` (neither null/absent
nor the sentinel `"all"`) the spec's three-predicate characterisation drops a
note whose tags do not contain the empty string, yet `filterNotes` keeps it
(the code tests JS truthiness, not only null/absent). -/
theorem filterNotes_empty_activeTag_cex :
    filterNotes [noteTagX] [] (some []) = [noteTagX]
      ∧ specKeep noteTagX [] (some []) = false := by decide

/-- C2 amended: a note passes `filterNotes` iff the three predicates hold,
with predicate (1) true when `activeTag` is null/absent, empty, or the
sentinel `"all"`, or the tags contain `activeTag` exactly. -/
theorem filterNotes_iff_amended (notes : List Note) (query : Str) (activeTag : Option Str) :
    filterNotes notes query activeTag
      = notes.filter (fun n => specKeepAmended n query activeTag) := by
  unfold filterNotes specKeepAmended
  exact List.filter_congr fun n _ =>
    keepNote_eq_amended (parseSearchQuery query) activeTag n (parse_tag_ne_empty query)

/-- C5 counterexample: on the query `tag:""` the parser does not return
`tag = null`; the unquoted alternative of the pattern matches the two quote
characters, so a non-null tag is produced. -/
theorem parseSearchQuery_empty_quoted_cex :
    (parseSearchQuery ("tag:\"\"".toList)).2 ≠ none := by decide

/-- C5 amended: `parseSearchQuery "tag:\"\""` yields the two-character tag
`""` (the quote characters themselves) and still strips the matched span,
leaving empty free text. -/
theorem parseSearchQuery_empty_quoted_eval :
    parseSearchQuery ("tag:\"\"".toList) = ([], some ("\"\"".toList)) := by decide

/-- C3: evaluation at the failing input.  A note with an unparseable
`updatedAt` and no `createdAt` gets the key `NaN` (`none`), not epoch zero,
and does not sort after a note updated one day past the epoch: the
`NaN` comparator result leaves the pair in input order. -/
theorem sortNotes_unparseable_key_eval :
    noteKey noteNaN = none ∧ noteKey noteEpoch1 = some 86400000
      ∧ (sortNotesByUpdatedAtDesc [noteNaN, noteEpoch1]).ret = [noteNaN, noteEpoch1] := by
  decide

/-- C4 counterexample: a note whose `updatedAt` is present but unparseable
does not fall back to `createdAt`; its effective key is `NaN` (`none`), not
the key of its valid `createdAt`. -/
theorem sortNotes_no_fallback_on_unparseable_cex :
    noteKey noteBadUpd = none
      ∧ dateParse ("1970-01-02T00:00:00.000Z".toList) = some 86400000
      ∧ noteKey noteBadUpd ≠ dateParse ("1970-01-02T00:00:00.000Z".toList) := by decide

/-- C4 amended: the fallback to `createdAt` applies exactly when `updatedAt`
is absent or the empty string (JS-falsy); then the comparison key is computed
from `createdAt`. -/
theorem sortNotes_fallback_on_falsy_updatedAt (n : Note) (c : Str)
    (h : n.updatedAt = none ∨ n.updatedAt = some [])
    (hc : n.createdAt = some c) (hne : c ≠ []) :
    noteKey n = dateParse c := by
  unfold noteKey tsArg jsOrStr
  rcases h with h | h <;> rw [h, hc] <;> simp [hne]

/-- Witness for C4 amended: a note with no `updatedAt` and a valid
`createdAt` takes its key from `createdAt`. -/
theorem sortNotes_fallback_on_falsy_updatedAt_witness :
    noteKey noteNoUpd = dateParse ("2025-01-03T00:00:00.000Z".toList) :=
  sortNotes_fallback_on_falsy_updatedAt noteNoUpd ("2025-01-03T00:00:00.000Z".toList)
    (Or.inl rfl) rfl (by decide)

/-- C9: highlighting matches against the trimmed needle, so two needles equal
after trimming produce identical segmentations. -/
theorem highlight_trim_insensitive (text n1 n2 : Str) (h : trimJS n1 = trimJS n2) :
    toHighlightedSegments text n1 = toHighlightedSegments text n2 := by
  unfold toHighlightedSegments
  rw [h]

/-- C10: `filterNotes` and `getNotePreview` are total on records with absent
fields: a missing `tags` field behaves as the empty tag list, missing `title`
or `body` as the empty string (observed through the filter's output), and the
preview of a note whose body is missing or whitespace-only is the fixed
placeholder. -/
theorem filter_preview_total_defaults (n : Note) (q : Str) (a : Option Str) (b : Str)
    (hb : b.all isWSpace = true) :
    ((filterNotes [{ n with tags := none }] q a).map Note.id
        = (filterNotes [{ n with tags := some [] }] q a).map Note.id)
    ∧ ((filterNotes [{ n with title := none }] q a).map Note.id
        = (filterNotes [{ n with title := some [] }] q a).map Note.id)
    ∧ ((filterNotes [{ n with body := none }] q a).map Note.id
        = (filterNotes [{ n with body := some [] }] q a).map Note.id)
    ∧ getNotePreview { n with body := none } = noContentPlaceholder
    ∧ getNotePreview { n with body := some b } = noContentPlaceholder := by
  refine ⟨?_, ?_, ?_, rfl, ?_⟩
  · exact filter_single_map_id q a _ _ rfl rfl
  · exact filter_single_map_id q a _ _ rfl rfl
  · exact filter_single_map_id q a _ _ rfl rfl
  · unfold getNotePreview
    simp [trim_collapse_all_ws b hb]

/-- Witness for C10 at a whitespace-only body and a concrete filter call. -/
theorem filter_preview_total_defaults_witness :
    getNotePreview { noteSample with body := some ("  \t\n".toList) } = noContentPlaceholder
    ∧ ((filterNotes [{ noteSample with tags := none }] ("work".toList) none).map Note.id
        = (filterNotes [{ noteSample with tags := some [] }] ("work".toList) none).map Note.id) :=
  ⟨(filter_preview_total_defaults noteSample ("work".toList) none ("  \t\n".toList)
      (by decide)).2.2.2.2,
   (filter_preview_total_defaults noteSample ("work".toList) none ("  \t\n".toList)
      (by decide)).1⟩

/-- C7: `updateNoteTimestamps` refreshes `updatedAt` to the current instant,
preserves a present (non-empty) `createdAt` — also across a second
application — backfills an absent `createdAt` with the current instant,
leaves every other field unchanged, and `updatedAt` is strictly increasing
across two applications at two chronologically ordered instants. -/
theorem touchNote_contract (n m : Note) (now now2 c : Str)
    (hc : n.createdAt = some c) (hne : c ≠ [])
    (hm : m.createdAt = none) (hlt : isoLt now now2 = true) :
    (updateNoteTimestamps now n).updatedAt = some now
    ∧ (updateNoteTimestamps now n).createdAt = some c
    ∧ (updateNoteTimestamps now2 (updateNoteTimestamps now n)).createdAt = some c
    ∧ (updateNoteTimestamps now n).id = n.id
    ∧ (updateNoteTimestamps now n).title = n.title
    ∧ (updateNoteTimestamps now n).body = n.body
    ∧ (updateNoteTimestamps now n).tags = n.tags
    ∧ (updateNoteTimestamps now m).createdAt = some now
    ∧ optIsoLt (updateNoteTimestamps now n).updatedAt
        ((updateNoteTimestamps now2 (updateNoteTimestamps now n)).updatedAt) = true := by
  refine ⟨rfl, ?_, ?_, rfl, rfl, rfl, rfl, ?_, ?_⟩
  · simp [updateNoteTimestamps, jsOrStr, hc, hne]
  · simp [updateNoteTimestamps, jsOrStr, hc, hne]
  · simp [updateNoteTimestamps, jsOrStr, hm]
  · exact hlt

/-- Witness for C7 at concrete notes and instants. -/
theorem touchNote_contract_witness :
    (updateNoteTimestamps ("2025-01-02T00:00:00.000Z".toList) noteSample).createdAt
        = some ("2025-01-01T00:00:00.000Z".toList)
    ∧ optIsoLt (updateNoteTimestamps ("2025-01-02T00:00:00.000Z".toList) noteSample).updatedAt
        ((updateNoteTimestamps ("2025-01-03T00:00:00.000Z".toList)
          (updateNoteTimestamps ("2025-01-02T00:00:00.000Z".toList) noteSample)).updatedAt)
        = true :=
  ⟨(touchNote_contract noteSample noteNaN ("2025-01-02T00:00:00.000Z".toList)
      ("2025-01-03T00:00:00.000Z".toList) ("2025-01-01T00:00:00.000Z".toList)
      rfl (by decide) rfl (by decide)).2.1,
   (touchNote_contract noteSample noteNaN ("2025-01-02T00:00:00.000Z".toList)
      ("2025-01-03T00:00:00.000Z".toList) ("2025-01-01T00:00:00.000Z".toList)
      rfl (by decide) rfl (by decide)).2.2.2.2.2.2.2.2⟩

/-- Witness for C9 at a needle with surrounding whitespace. -/
theorem highlight_trim_insensitive_witness :
    toHighlightedSegments ("Hello world".toList) ("  wor ".toList)
      = toHighlightedSegments ("Hello world".toList) ("wor".toList) :=
  highlight_trim_insensitive ("Hello world".toList) ("  wor ".toList) ("wor".toList) (by decide)
